import Mathlib

set_option linter.unusedVariables false

/-!
Shallow embedding of the MPRL engine environments (src/mprl/engines.py and
src/engine.py).  Machine floats are modelled by an arbitrary linear ordered
field `K` (instantiated at `ℚ` for concrete evaluations and at `ℝ` where a
real power function is needed).  The external chemistry/thermodynamics
provider (cantera) is modelled by abstract functions returning property
records, as the spec declares it an external collaborator.
-/

namespace MPRL

variable {K : Type} [LinearOrderedField K]

/-- Gas property record returned by the external chemistry provider for a
given temperature, pressure and (fixed) composition: specific heats `cv`,
`cp`, internal energy `u`, mean molecular weight `mw`, specific volume `v`
(cantera attributes `cv, cp, u, mean_molecular_weight, v`). -/
structure GasProps (K : Type) where
  cv : K
  cp : K
  u : K
  mw : K
  v : K

/-- The universal gas constant literal `8314.47215` used in both copies of
`dfundt_mdot` (`Rb = 8314.47215 / mean_molecular_weight`). -/
def univR : K := 831447215 / 100000

/-- Two-zone ODE right-hand side, from `TwoZoneEngine.dfundt_mdot`
(src/mprl/engines.py lines 430-539).  `burnt T p` gives the burnt-gas
properties at `(Tb, p)` (composition `xburnt`), `unburnt T p` the
unburnt-gas properties at `(Tu, p)` (composition `xinit`).  The state is
`y = (p, Tu, Tb, mb)`, `mxdot` the injected-fuel mass rate, `V`/`dVdt` the
imposed volume and its rate, `Qdot` the wall heat-exchange action.
Returns `(dpdt, dTudt, dTbdt, dmbdt)`.  The side write of the mass-weighted
temperature into `current_state["T"]` is not part of the returned value. -/
def dfundt_mdot (burnt unburnt : K → K → GasProps K) (small_mass far : K)
    (t p Tu Tb mb mxdot V dVdt Qdot : K) : K × K × K × K :=
  let cv_b := (burnt Tb p).cv
  let ub := (burnt Tb p).u
  let Rb := univR / (burnt Tb p).mw
  let Vb := (burnt Tb p).v * mb
  let cv_u := (unburnt Tu p).cv
  let cp_u := (unburnt Tu p).cp
  let uu := (unburnt Tu p).u
  let Ru := univR / (unburnt Tu p).mw
  let vu := (unburnt Tu p).v
  let invgamma_u := cv_u / cp_u
  let RuovRb := Ru / Rb
  let Vu := V - Vb
  let m_u := Vu / vu
  -- `if mb >= self.small_mass: Qudot = 0.0 else: Qudot = Qdot`
  let Qudot := if small_mass ≤ mb then 0 else Qdot
  -- `mbxdot = mxdot * (1 + 1 / self.far)`
  let mbxdot := mxdot * (1 + 1 / far)
  let dmbdt := mbxdot
  let dpdt :=
    1 / (invgamma_u * Vu - cv_b * RuovRb / cp_u * Vu + cv_b / Rb * V) *
      (-1 * (1 + cv_b / Rb) * p * dVdt - Qdot
        - ((ub - uu) - cv_b * (Tb - RuovRb * Tu)) * mbxdot
        + (cv_u / cp_u - cv_b / Rb * Ru / cp_u) * Qudot)
  let dTudt := 1 / (m_u * cp_u) * (Vu * dpdt - Qudot)
  let dTbdt :=
    if mb ≤ small_mass then 0
    else
      p / (mb * Rb) *
        (dVdt - (Vb / mb - Vu / m_u) * mbxdot + V / p * dpdt - Vu / Tu * dTudt)
  (dpdt, dTudt, dTbdt, dmbdt)

/-- Two-zone ODE right-hand side of the older variant
`Engine.dfundt_mdot` (src/engine.py lines 348-445): identical except that
`mxdot` is the mass burning rate directly (no `(1 + 1/far)` scaling). -/
def dfundt_mdot_py (burnt unburnt : K → K → GasProps K) (small_mass : K)
    (t p Tu Tb mb mxdot V dVdt Qdot : K) : K × K × K × K :=
  let cv_b := (burnt Tb p).cv
  let ub := (burnt Tb p).u
  let Rb := univR / (burnt Tb p).mw
  let Vb := (burnt Tb p).v * mb
  let cv_u := (unburnt Tu p).cv
  let cp_u := (unburnt Tu p).cp
  let uu := (unburnt Tu p).u
  let Ru := univR / (unburnt Tu p).mw
  let vu := (unburnt Tu p).v
  let invgamma_u := cv_u / cp_u
  let RuovRb := Ru / Rb
  let Vu := V - Vb
  let m_u := Vu / vu
  let Qudot := if small_mass ≤ mb then 0 else Qdot
  let dpdt :=
    1 / (invgamma_u * Vu - cv_b * RuovRb / cp_u * Vu + cv_b / Rb * V) *
      (-1 * (1 + cv_b / Rb) * p * dVdt - Qdot
        - ((ub - uu) - cv_b * (Tb - RuovRb * Tu)) * mxdot
        + (cv_u / cp_u - cv_b / Rb * Ru / cp_u) * Qudot)
  let dTudt := 1 / (m_u * cp_u) * (Vu * dpdt - Qudot)
  let dTbdt :=
    if mb ≤ small_mass then 0
    else
      p / (mb * Rb) *
        (dVdt - (Vb / mb - Vu / m_u) * mxdot + V / p * dpdt - Vu / Tu * dTudt)
  let dmbdt := mxdot
  (dpdt, dTudt, dTbdt, dmbdt)

/-- The pressure-rate law exactly as worded in the spec (section 4.3.1):
`dp/dt = [ -(1+cv_b/Rb)·p·dV/dt - Qdot - ((ub-uu) - cv_b·(Tb - (Ru/Rb)·Tu))·mb_dot
+ (cv_u/cp_u - (cv_b/Rb)·(Ru/cp_u))·Qu_dot ] / [ (cv_u/cp_u)·Vu -
cv_b·(Ru/Rb)/cp_u·Vu + (cv_b/Rb)·V_total ]`. -/
def dpdtFormula (cv_b Rb ub cv_u cp_u Ru uu p Tu Tb dVdt Qdot mb_dot Qu_dot Vu Vtot : K) : K :=
  (-(1 + cv_b / Rb) * p * dVdt - Qdot
      - ((ub - uu) - cv_b * (Tb - Ru / Rb * Tu)) * mb_dot
      + (cv_u / cp_u - cv_b / Rb * (Ru / cp_u)) * Qu_dot) /
    (cv_u / cp_u * Vu - cv_b * (Ru / Rb) / cp_u * Vu + cv_b / Rb * Vtot)

/-- The spec's wording for the heat loss to the unburned zone: the
heat-transfer action while `mb` is below the negligible-mass threshold,
zero otherwise. -/
def QuFormula (small_mass mb Qdot : K) : K :=
  if mb < small_mass then Qdot else 0

/-- One row of the engine history table (`self.history` columns).  The
two-zone engines use columns `V, dVdt, dV, ca, t`; the reactor and
equilibrate engines additionally use `piston_velocity`. -/
structure Sample (K : Type) where
  V : K
  dVdt : K
  dV : K
  ca : K
  t : K
  piston_velocity : K

/-- Current state of a `TwoZoneEngine` (`self.current_state` entries:
histories `V, dVdt, dV, ca, t`, observables/internals
`p, Tu, Tb, mb, T, attempt_ninj, success_ninj, can_inject`), together with
the pandas `Series.name` step counter. -/
structure TZState (K : Type) where
  p : K
  Tu : K
  Tb : K
  mb : K
  T : K
  V : K
  dVdt : K
  dV : K
  ca : K
  t : K
  attempt_ninj : K
  success_ninj : K
  can_inject : K
  name : ℕ

/-- Current state of a `ReactorEngine` or `EquilibrateEngine`
(`self.current_state` entries), with the `Series.name` step counter. -/
structure REState (K : Type) where
  p : K
  T : K
  mb : K
  minj : K
  nox : K
  soot : K
  V : K
  dVdt : K
  dV : K
  ca : K
  t : K
  piston_velocity : K
  attempt_ninj : K
  success_ninj : K
  can_inject : K
  name : ℕ

/-- Snapshot of the external cantera gas object as read by the state
updaters and by `EquilibrateEngine.step` (`P, T, cp, cv, density_mole`,
plus the derived `get_nox`/`get_soot` mass fractions). -/
structure Gas (K : Type) where
  P : K
  T : K
  cp : K
  cv : K
  density_mole : K
  nox : K
  soot : K

/-- `Engine.update_state` with the `TwoZoneEngine.state_updater` map
(src/mprl/engines.py lines 296-300 and 339-353): the ODE result
`integ.y = (p, Tu, Tb, mb)` is written to the internals, `T` is kept, the
history fields are copied verbatim from `history.loc[name + 1]`, the action
counters are copied from the controller, and `name` is incremented. -/
def twoZoneUpdate (hist : ℕ → Sample K) (y : K × K × K × K)
    (attempt success : K) (allowed : Bool) (s : TZState K) : TZState K :=
  { p := y.1
    Tu := y.2.1
    Tb := y.2.2.1
    mb := y.2.2.2
    T := s.T
    V := (hist (s.name + 1)).V
    dVdt := (hist (s.name + 1)).dVdt
    dV := (hist (s.name + 1)).dV
    ca := (hist (s.name + 1)).ca
    t := (hist (s.name + 1)).t
    attempt_ninj := attempt
    success_ninj := success
    can_inject := if allowed then 1 else 0
    name := s.name + 1 }

/-- `Engine.update_state` with the `ReactorEngine.state_updater` map
(src/mprl/engines.py lines 738-756): `p`/`T`/`nox`/`soot` are read off the
cantera gas, `mb` is set to `0`, `minj` to
`action.current["mdot"] * dt_agent`, the history fields (including
`piston_velocity`) are copied verbatim from `history.loc[name + 1]`, and
`name` is incremented. -/
def reactorUpdate (hist : ℕ → Sample K) (g : Gas K)
    (mdot_current dt_agent attempt success : K) (allowed : Bool)
    (s : REState K) : REState K :=
  { p := g.P
    T := g.T
    mb := 0
    minj := mdot_current * dt_agent
    nox := g.nox
    soot := g.soot
    V := (hist (s.name + 1)).V
    dVdt := (hist (s.name + 1)).dVdt
    dV := (hist (s.name + 1)).dV
    ca := (hist (s.name + 1)).ca
    t := (hist (s.name + 1)).t
    piston_velocity := (hist (s.name + 1)).piston_velocity
    attempt_ninj := attempt
    success_ninj := success
    can_inject := if allowed then 1 else 0
    name := s.name + 1 }

/-- `Engine.update_state` with the `EquilibrateEngine.state_updater` map
(src/mprl/engines.py lines 923-941); the map is entry-for-entry the same
as the reactor one. -/
def equilibrateUpdate (hist : ℕ → Sample K) (g : Gas K)
    (mdot_current dt_agent attempt success : K) (allowed : Bool)
    (s : REState K) : REState K :=
  { p := g.P
    T := g.T
    mb := 0
    minj := mdot_current * dt_agent
    nox := g.nox
    soot := g.soot
    V := (hist (s.name + 1)).V
    dVdt := (hist (s.name + 1)).dVdt
    dV := (hist (s.name + 1)).dV
    ca := (hist (s.name + 1)).ca
    t := (hist (s.name + 1)).t
    piston_velocity := (hist (s.name + 1)).piston_velocity
    attempt_ninj := attempt
    success_ninj := success
    can_inject := if allowed then 1 else 0
    name := s.name + 1 }

/-- `Engine.reset_state` as specialised by `TwoZoneEngine` (zero-filled
series with `name = 0`, then `p := p0`, `T := T0`, histories from
`history.loc[0]`, and the `state_reseter` entries `Tu := T0`,
`Tb := Tb_ad`, `can_inject := 1`). -/
def twoZoneReset (hist : ℕ → Sample K) (p0 T0 Tb_ad : K) : TZState K :=
  { p := p0
    Tu := T0
    Tb := Tb_ad
    mb := 0
    T := T0
    V := (hist 0).V
    dVdt := (hist 0).dVdt
    dV := (hist 0).dV
    ca := (hist 0).ca
    t := (hist 0).t
    attempt_ninj := 0
    success_ninj := 0
    can_inject := 1
    name := 0 }

/-- `Engine.reset_state` as specialised by `ReactorEngine` (zero-filled
series with `name = 0`, then `p := p0`, `T := T0`, histories from
`history.loc[0]`, and the `state_reseter` entry `can_inject := 1`). -/
def reactorReset (hist : ℕ → Sample K) (p0 T0 : K) : REState K :=
  { p := p0
    T := T0
    mb := 0
    minj := 0
    nox := 0
    soot := 0
    V := (hist 0).V
    dVdt := (hist 0).dVdt
    dV := (hist 0).dV
    ca := (hist 0).ca
    t := (hist 0).t
    piston_velocity := (hist 0).piston_velocity
    attempt_ninj := 0
    success_ninj := 0
    can_inject := 1
    name := 0 }

/-- `Engine.reset_state` as specialised by `EquilibrateEngine`; its
`state_reseter` is the same single `can_inject := 1` entry. -/
def equilibrateReset (hist : ℕ → Sample K) (p0 T0 : K) : REState K :=
  { p := p0
    T := T0
    mb := 0
    minj := 0
    nox := 0
    soot := 0
    V := (hist 0).V
    dVdt := (hist 0).dVdt
    dV := (hist 0).dV
    ca := (hist 0).ca
    t := (hist 0).t
    piston_velocity := (hist 0).piston_velocity
    attempt_ninj := 0
    success_ninj := 0
    can_inject := 1
    name := 0 }

/-- `Engine.termination` of src/mprl/engines.py (lines 302-313): the
reward defaults to `p * dV` (`get_reward`); if the step counter has
reached the last history row the episode is done (reward untouched);
otherwise, if the pressure exceeds `max_pressure`, the reward is replaced
by the configured negative reward (the episode continues). -/
def termination (hist_len : ℕ) (max_pressure negative_reward : K)
    (name : ℕ) (p dV : K) : K × Bool :=
  let reward := p * dV
  if hist_len - 1 ≤ name then (reward, true)
  else if max_pressure < p then (negative_reward, false)
  else (reward, false)

/-- `TwoZoneEngine.step` (src/mprl/engines.py lines 387-428) after the
action has been preprocessed by the external `ActionController`
(mprl/actiontypes.py, not part of src/): `masked` and `allowed` are the
controller's masked flag and `isallowed()` view, `attempt`/`success` its
counters.  The scipy `vode` integration is external numerics; its outcome
is the solved state `y` together with the solver's success flag
`solver_ok`.  The source never consults `integ.successful()`: the returned
reward and done flag are computed from the updated state regardless of
`solver_ok`.  When `masked` is set, the configured negative reward is
added to the termination reward. -/
def twoZoneStep (hist : ℕ → Sample K) (hist_len : ℕ) (maxP neg : K)
    (solver_ok : Bool) (y : K × K × K × K) (attempt success : K)
    (allowed masked : Bool) (s : TZState K) : TZState K × K × Bool :=
  let s' := twoZoneUpdate hist y attempt success allowed s
  let rd := termination hist_len maxP neg s'.name s'.p s'.dV
  let reward := if masked then rd.1 + neg else rd.1
  (s', reward, rd.2)

/-- Current state of the src/engine.py `Engine` (histories
`V, dVdt, dV, ca, t` and internals `p, Tu, Tb, mb`), with the pandas
`Series.name` step counter. -/
structure EPState (K : Type) where
  p : K
  Tu : K
  Tb : K
  mb : K
  V : K
  dVdt : K
  dV : K
  ca : K
  t : K
  name : ℕ

/-- `Engine.termination` of src/engine.py (lines 325-338): done when the
step counter reaches the last history row or the burned mass exceeds
`max_burned_mass` (work reward kept), else done with the negative reward
when `mdot < -1e-3` or the pressure exceeds `max_pressure`. -/
def terminationPy (hist_len : ℕ) (max_burned maxP neg : K) (mdot : K)
    (s : EPState K) : K × Bool :=
  let reward := s.p * s.dV
  if hist_len - 1 ≤ s.name ∨ max_burned < s.mb then (reward, true)
  else if mdot < -(1 / 1000) ∨ maxP < s.p then (neg, true)
  else (reward, false)

/-- `Engine.step` of src/engine.py (lines 271-323): evaluate termination
first and return unchanged if done; then integrate (external solver, its
outcome modelled by the flag `solver_ok` and the solved vector `y`); if
the integration was not successful, return the unchanged state with the
negative reward and `done = true`; otherwise copy the history row
`step + 1` and the solver result into the state, increment the counter and
return the work reward with `done = false`. -/
def stepPy (hist : ℕ → Sample K) (hist_len : ℕ) (max_burned maxP neg : K)
    (solver_ok : Bool) (y : K × K × K × K) (mdot qdot : K)
    (s : EPState K) : EPState K × K × Bool :=
  let rd := terminationPy hist_len max_burned maxP neg mdot s
  if rd.2 then (s, rd.1, rd.2)
  else if solver_ok = false then (s, neg, true)
  else
    let s' : EPState K :=
      { p := y.1
        Tu := y.2.1
        Tb := y.2.2.1
        mb := y.2.2.2
        V := (hist (s.name + 1)).V
        dVdt := (hist (s.name + 1)).dVdt
        dV := (hist (s.name + 1)).dV
        ca := (hist (s.name + 1)).ca
        t := (hist (s.name + 1)).t
        name := s.name + 1 }
    (s', s'.p * s'.dV, false)

/-- One sub-step of `ReactorEngine.step`: the external chemistry
(`sim.advance`, and the injection remix on the first sub-step) yields gas
snapshot `gasTraj i`; the state is then updated through the reactor state
updater map. -/
def reactorSubstep (hist : ℕ → Sample K) (gasTraj : ℕ → Gas K)
    (mdot_current dt_agent attempt success : K) (allowed : Bool)
    (i : ℕ) (s : REState K) : REState K :=
  reactorUpdate hist (gasTraj i) mdot_current dt_agent attempt success allowed s

/-- The sub-cycling loop of `ReactorEngine.step` (src/mprl/engines.py
lines 828-864): for each sub-step index, advance (update the state),
evaluate `termination`, accumulate the sub-reward into the running total
and keep the latest done flag. -/
def reactorLoop (hist_len : ℕ) (maxP neg : K) (upd : ℕ → REState K → REState K) :
    List ℕ → REState K × K × Bool → REState K × K × Bool
  | [], acc => acc
  | i :: rest, (s, r, _) =>
    let s' := upd i s
    let rd := termination hist_len maxP neg s'.name s'.p s'.dV
    reactorLoop hist_len maxP neg upd rest (s', r + rd.1, rd.2)

/-- `ReactorEngine.step` (src/mprl/engines.py lines 822-879): starting
from reward `0`, run `substeps - 1` sub-steps accumulating the per-substep
termination rewards, then add the configured negative reward if the
controller masked the action. -/
def reactorStep (hist : ℕ → Sample K) (hist_len : ℕ) (maxP neg : K)
    (substeps : ℕ) (gasTraj : ℕ → Gas K)
    (mdot_current dt_agent attempt success : K) (allowed masked : Bool)
    (s0 : REState K) : REState K × K × Bool :=
  let res := reactorLoop hist_len maxP neg
    (reactorSubstep hist gasTraj mdot_current dt_agent attempt success allowed)
    (List.range (substeps - 1)) (s0, 0, false)
  (res.1, (if masked then res.2.1 + neg else res.2.1), res.2.2)

/-- The state of the reactor after `i` sub-steps of the current agent
step (spec-side description of the loop's trajectory). -/
def reactorStateAfter (upd : ℕ → REState K → REState K) (s0 : REState K) :
    ℕ → REState K
  | 0 => s0
  | i + 1 => upd i (reactorStateAfter upd s0 i)

/-- Spec-side per-sub-step reward: the termination reward evaluated on the
state reached after sub-step `i`. -/
def substepReward (hist_len : ℕ) (maxP neg : K)
    (upd : ℕ → REState K → REState K) (s0 : REState K) (i : ℕ) : K :=
  let s := reactorStateAfter upd s0 (i + 1)
  (termination hist_len maxP neg s.name s.p s.dV).1

/-- The isentropic compression of `EquilibrateEngine.step`
(src/mprl/engines.py lines 975-982): `gamma = cp / cv`,
`P2 = P1 / ((V2 / V1) ** gamma)`, `T2 = P2 * V2 / (density_mole * V1 * R)`,
then `gas.TP = T2, P2`.  The power function `pw` models the float `**`
(instantiated with the real power in the theorems); `R` is the cantera
`gas_constant`.  Untouched fields keep their previous snapshot values (the
external provider would refresh them on the next read). -/
def isentropicAdvance (pw : K → K → K) (R : K) (g : Gas K) (V1 V2 : K) : Gas K :=
  let gamma := g.cp / g.cv
  let P2 := g.P / pw (V2 / V1) gamma
  let T2 := P2 * V2 / (g.density_mole * V1 * R)
  { g with P := P2, T := T2 }

/-- `EquilibrateEngine.step` (src/mprl/engines.py lines 967-1012): advance
the gas isentropically between the history volumes at the current and next
step index; if a positive mass-rate command was issued, apply the external
adiabatic-mixing plus constant-UV equilibrium solve (abstracted as `inj`);
then update the state through the equilibrate state updater, evaluate
`termination`, and add the negative reward if the action was masked. -/
def equilibrateStep (pw : K → K → K) (R : K) (hist : ℕ → Sample K)
    (hist_len : ℕ) (maxP neg : K) (inj : Gas K → Gas K)
    (mdot_current dt_agent attempt success : K) (allowed masked : Bool)
    (g : Gas K) (s : REState K) : Gas K × REState K × K × Bool :=
  let g1 := isentropicAdvance pw R g (hist s.name).V (hist (s.name + 1)).V
  let g2 := if 0 < mdot_current then inj g1 else g1
  let s' := equilibrateUpdate hist g2 mdot_current dt_agent attempt success allowed s
  let rd := termination hist_len maxP neg s'.name s'.p s'.dV
  (g2, s', (if masked then rd.1 + neg else rd.1), rd.2)

/-- The burned-mass safety threshold `self.max_burned_mass = 6e-3` of the
mprl `Engine`. -/
def max_burned_mass : K := 6 / 1000

end MPRL

namespace MPRL

variable {K : Type} [LinearOrderedField K]

/-- Claim C1: for every input, `dfundt_mdot` returns `dp/dt` equal to the
spec's formula, with burned-zone properties at `(Tb, p)`, unburned-zone
properties at `(Tu, p)`, `Vu = V_total - Vb`, `Qu_dot` equal to the
heat-transfer action exactly while `mb` is below the negligible-mass
threshold, and the mass burning rate being `mxdot·(1 + 1/far)` in the mprl
variant and the raw command in the src/engine.py variant. -/
theorem claim_C1_dpdt (burnt unburnt : K → K → GasProps K)
    (small_mass far t p Tu Tb mb mxdot V dVdt Qdot : K) :
    (dfundt_mdot burnt unburnt small_mass far t p Tu Tb mb mxdot V dVdt Qdot).1 =
      dpdtFormula (burnt Tb p).cv (univR / (burnt Tb p).mw) (burnt Tb p).u
        (unburnt Tu p).cv (unburnt Tu p).cp (univR / (unburnt Tu p).mw) (unburnt Tu p).u
        p Tu Tb dVdt Qdot (mxdot * (1 + 1 / far)) (QuFormula small_mass mb Qdot)
        (V - (burnt Tb p).v * mb) V ∧
    (dfundt_mdot_py burnt unburnt small_mass t p Tu Tb mb mxdot V dVdt Qdot).1 =
      dpdtFormula (burnt Tb p).cv (univR / (burnt Tb p).mw) (burnt Tb p).u
        (unburnt Tu p).cv (unburnt Tu p).cp (univR / (unburnt Tu p).mw) (unburnt Tu p).u
        p Tu Tb dVdt Qdot mxdot (QuFormula small_mass mb Qdot)
        (V - (burnt Tb p).v * mb) V := by
  constructor <;>
  · simp only [dfundt_mdot, dfundt_mdot_py, dpdtFormula, QuFormula]
    rcases lt_or_le mb small_mass with h | h
    · rw [if_neg (not_le.2 h), if_pos h]
      ring
    · rw [if_pos h, if_neg (not_lt.2 h)]
      ring

/-- Claim C4: in both two-zone variants, a zero injection command together
with zero heat transfer gives `dmb/dt = 0`, for every time and state. -/
theorem claim_C4_mass_conservation (burnt unburnt : K → K → GasProps K)
    (small_mass far t p Tu Tb mb mxdot V dVdt Qdot : K)
    (hm : mxdot = 0) (hq : Qdot = 0) :
    (dfundt_mdot burnt unburnt small_mass far t p Tu Tb mb mxdot V dVdt Qdot).2.2.2 = 0 ∧
    (dfundt_mdot_py burnt unburnt small_mass t p Tu Tb mb mxdot V dVdt Qdot).2.2.2 = 0 := by
  subst hm hq
  constructor <;> simp [dfundt_mdot, dfundt_mdot_py]

/-- Witness for C4 at a concrete input. -/
theorem claim_C4_witness :
    (dfundt_mdot (K := ℚ) (fun _ _ => ⟨1, 1, 1, 1, 1⟩) (fun _ _ => ⟨1, 1, 1, 1, 1⟩)
        1 1 0 2 300 2000 0 0 1 1 0).2.2.2 = 0 ∧
    (dfundt_mdot_py (K := ℚ) (fun _ _ => ⟨1, 1, 1, 1, 1⟩) (fun _ _ => ⟨1, 1, 1, 1, 1⟩)
        1 0 2 300 2000 0 0 1 1 0).2.2.2 = 0 :=
  claim_C4_mass_conservation (fun _ _ => ⟨1, 1, 1, 1, 1⟩) (fun _ _ => ⟨1, 1, 1, 1, 1⟩)
    1 1 0 2 300 2000 0 0 1 1 0 rfl rfl

/-- Claim C2: after every advance, in all three model variants, the
history fields `V, dVdt, dV, ca, t` of the current state are copied
verbatim from the history table at index `step + 1`; in particular a reset
followed by one advance yields `state.t` and `state.ca` exactly equal to
history sample 1's `t` and `ca`. -/
theorem claim_C2_history_verbatim :
    (∀ (hist : ℕ → Sample K) (y : K × K × K × K) (attempt success : K)
        (allowed : Bool) (s : TZState K),
      (twoZoneUpdate hist y attempt success allowed s).V = (hist (s.name + 1)).V ∧
      (twoZoneUpdate hist y attempt success allowed s).dVdt = (hist (s.name + 1)).dVdt ∧
      (twoZoneUpdate hist y attempt success allowed s).dV = (hist (s.name + 1)).dV ∧
      (twoZoneUpdate hist y attempt success allowed s).ca = (hist (s.name + 1)).ca ∧
      (twoZoneUpdate hist y attempt success allowed s).t = (hist (s.name + 1)).t) ∧
    (∀ (hist : ℕ → Sample K) (g : Gas K) (mdot_current dt_agent attempt success : K)
        (allowed : Bool) (s : REState K),
      (reactorUpdate hist g mdot_current dt_agent attempt success allowed s).V
          = (hist (s.name + 1)).V ∧
      (reactorUpdate hist g mdot_current dt_agent attempt success allowed s).dVdt
          = (hist (s.name + 1)).dVdt ∧
      (reactorUpdate hist g mdot_current dt_agent attempt success allowed s).dV
          = (hist (s.name + 1)).dV ∧
      (reactorUpdate hist g mdot_current dt_agent attempt success allowed s).ca
          = (hist (s.name + 1)).ca ∧
      (reactorUpdate hist g mdot_current dt_agent attempt success allowed s).t
          = (hist (s.name + 1)).t) ∧
    (∀ (hist : ℕ → Sample K) (g : Gas K) (mdot_current dt_agent attempt success : K)
        (allowed : Bool) (s : REState K),
      (equilibrateUpdate hist g mdot_current dt_agent attempt success allowed s).V
          = (hist (s.name + 1)).V ∧
      (equilibrateUpdate hist g mdot_current dt_agent attempt success allowed s).dVdt
          = (hist (s.name + 1)).dVdt ∧
      (equilibrateUpdate hist g mdot_current dt_agent attempt success allowed s).dV
          = (hist (s.name + 1)).dV ∧
      (equilibrateUpdate hist g mdot_current dt_agent attempt success allowed s).ca
          = (hist (s.name + 1)).ca ∧
      (equilibrateUpdate hist g mdot_current dt_agent attempt success allowed s).t
          = (hist (s.name + 1)).t) ∧
    (∀ (hist : ℕ → Sample K) (p0 T0 Tb_ad : K) (y : K × K × K × K)
        (attempt success : K) (allowed : Bool),
      (twoZoneUpdate hist y attempt success allowed (twoZoneReset hist p0 T0 Tb_ad)).t
          = (hist 1).t ∧
      (twoZoneUpdate hist y attempt success allowed (twoZoneReset hist p0 T0 Tb_ad)).ca
          = (hist 1).ca) ∧
    (∀ (hist : ℕ → Sample K) (p0 T0 : K) (g : Gas K)
        (mdot_current dt_agent attempt success : K) (allowed : Bool),
      (reactorUpdate hist g mdot_current dt_agent attempt success allowed
          (reactorReset hist p0 T0)).t = (hist 1).t ∧
      (reactorUpdate hist g mdot_current dt_agent attempt success allowed
          (reactorReset hist p0 T0)).ca = (hist 1).ca) ∧
    (∀ (hist : ℕ → Sample K) (p0 T0 : K) (g : Gas K)
        (mdot_current dt_agent attempt success : K) (allowed : Bool),
      (equilibrateUpdate hist g mdot_current dt_agent attempt success allowed
          (equilibrateReset hist p0 T0)).t = (hist 1).t ∧
      (equilibrateUpdate hist g mdot_current dt_agent attempt success allowed
          (equilibrateReset hist p0 T0)).ca = (hist 1).ca) := by
  refine ⟨?_, ?_, ?_, ?_, ?_, ?_⟩ <;> intros <;>
    simp [twoZoneUpdate, reactorUpdate, equilibrateUpdate, twoZoneReset,
      reactorReset, equilibrateReset]

/-- Counterexample to claim C3 as stated: a state at the final history
index whose pressure exceeds the maximum still gets the work-based reward
`p * dV`, not the negative penalty, because the last-step branch of
`Engine.termination` takes precedence over the over-pressure branch
(src/mprl/engines.py lines 302-313).  With 100 history rows, step counter
99, `max_pressure = 20265000` and `p = 20265001`, `dV = 1`, the returned
reward is `p * dV = 20265001 ≠ -8`. -/
theorem claim_C3_counterexample :
    termination (K := ℚ) 100 20265000 (-8) 99 20265001 1 = (20265001, true) ∧
      (20265001 : ℚ) ≠ -8 := by
  constructor
  · simp [termination]
  · norm_num

/-- Claim C3 (amended): in both cited termination evaluations, a state
whose pressure exceeds the configured maximum pressure and which has not
already triggered the first (episode-end) branch receives the configured
negative reward instead of the work-based reward `p * dV`: for the mprl
`Engine.termination` the proviso is that the step counter is below the
last history row; for the src/engine.py `Engine.termination` it is that,
in addition, the burned mass does not exceed `max_burned_mass`. -/
theorem claim_C3_overpressure_penalty :
    (∀ (hist_len : ℕ) (maxP neg : K) (name : ℕ) (p dV : K),
      name < hist_len - 1 → maxP < p →
      termination hist_len maxP neg name p dV = (neg, false)) ∧
    (∀ (hist_len : ℕ) (max_burned maxP neg mdot : K) (s : EPState K),
      s.name < hist_len - 1 → s.mb ≤ max_burned → maxP < s.p →
      terminationPy hist_len max_burned maxP neg mdot s = (neg, true)) := by
  constructor
  · intro hist_len maxP neg name p dV hname hp
    simp only [termination]
    rw [if_neg (not_le.2 hname), if_pos hp]
  · intro hist_len max_burned maxP neg mdot s hname hmb hp
    simp only [terminationPy]
    rw [if_neg (by push_neg; exact ⟨hname, hmb⟩), if_pos (Or.inr hp)]

/-- Witness for the amended C3 at concrete inputs, one per termination
variant. -/
theorem claim_C3_witness :
    termination (K := ℚ) 100 20265000 (-8) 5 20265001 1 = (-8, false) ∧
    terminationPy (K := ℚ) 100 (6 / 10000) 20265000 (-8) 0
        ⟨20265001, 400, 2000, 0, 1, 1, 1, 0, 0, 5⟩ = (-8, true) :=
  ⟨claim_C3_overpressure_penalty.1 100 20265000 (-8) 5 20265001 1
      (by norm_num) (by norm_num),
    claim_C3_overpressure_penalty.2 100 (6 / 10000) 20265000 (-8) 0
      ⟨20265001, 400, 2000, 0, 1, 1, 1, 0, 0, 5⟩
      (by norm_num) (by norm_num) (by norm_num)⟩

/-- The reactor sub-cycling loop accumulates exactly the per-sub-step
termination rewards along the trajectory of states (helper shared by the
theorems about `ReactorEngine.step`). -/
theorem reactorLoop_reward (hist_len : ℕ) (maxP neg : K)
    (upd : ℕ → REState K → REState K) (s0 : REState K) :
    ∀ (n k : ℕ) (r : K) (d : Bool),
      (reactorLoop hist_len maxP neg upd (List.range' k n)
          (reactorStateAfter upd s0 k, r, d)).2.1
        = r + ((List.range' k n).map (substepReward hist_len maxP neg upd s0)).sum := by
  intro n
  induction n with
  | zero => intro k r d; simp [reactorLoop]
  | succ n ih =>
    intro k r d
    rw [List.range'_succ]
    show (reactorLoop hist_len maxP neg upd (List.range' (k + 1) n)
        (reactorStateAfter upd s0 (k + 1),
          r + substepReward hist_len maxP neg upd s0 k, _)).2.1 = _
    rw [ih (k + 1)]
    simp [add_assoc]

/-- Claim C7: `ReactorEngine.step` evaluates reward and termination once
per sub-step and returns as the agent-step reward the sum of the
per-sub-step termination rewards (plus the masking penalty when the
action was masked). -/
theorem claim_C7_substep_reward_sum (hist : ℕ → Sample K) (hist_len : ℕ)
    (maxP neg : K) (substeps : ℕ) (gasTraj : ℕ → Gas K)
    (mdot_current dt_agent attempt success : K) (allowed masked : Bool)
    (s0 : REState K) :
    (reactorStep hist hist_len maxP neg substeps gasTraj mdot_current dt_agent
        attempt success allowed masked s0).2.1
      = ((List.range (substeps - 1)).map
          (substepReward hist_len maxP neg
            (reactorSubstep hist gasTraj mdot_current dt_agent attempt success allowed)
            s0)).sum + (if masked then neg else 0) := by
  have h := reactorLoop_reward hist_len maxP neg
    (reactorSubstep hist gasTraj mdot_current dt_agent attempt success allowed)
    s0 (substeps - 1) 0 0 false
  simp only [reactorStateAfter] at h
  simp only [reactorStep, List.range_eq_range', h]
  cases masked <;> simp [add_comm]

/-- Claim C9: in every mprl engine variant, when the controller masked the
action, the reward returned by `step` is the termination-derived reward
plus the configured negative reward: for the two-zone and equilibrate
engines it is the termination reward of the updated state plus `neg`, and
for the reactor engine it is the accumulated per-sub-step termination
reward plus `neg`; equivalently each masked step returns exactly `neg`
more than the identical unmasked step, independent of the physics
outcome. -/
theorem claim_C9_masked_penalty :
    (∀ (hist : ℕ → Sample K) (hist_len : ℕ) (maxP neg : K) (solver_ok : Bool)
        (y : K × K × K × K) (attempt success : K) (allowed : Bool) (s : TZState K),
      (twoZoneStep hist hist_len maxP neg solver_ok y attempt success allowed true s).2.1
        = (termination hist_len maxP neg
            (twoZoneUpdate hist y attempt success allowed s).name
            (twoZoneUpdate hist y attempt success allowed s).p
            (twoZoneUpdate hist y attempt success allowed s).dV).1 + neg ∧
      (twoZoneStep hist hist_len maxP neg solver_ok y attempt success allowed true s).2.1
        = (twoZoneStep hist hist_len maxP neg solver_ok y attempt success allowed false s).2.1
            + neg) ∧
    (∀ (hist : ℕ → Sample K) (hist_len : ℕ) (maxP neg : K) (substeps : ℕ)
        (gasTraj : ℕ → Gas K) (mdot_current dt_agent attempt success : K)
        (allowed : Bool) (s0 : REState K),
      (reactorStep hist hist_len maxP neg substeps gasTraj mdot_current dt_agent
          attempt success allowed true s0).2.1
        = (reactorStep hist hist_len maxP neg substeps gasTraj mdot_current dt_agent
            attempt success allowed false s0).2.1 + neg) ∧
    (∀ (pw : K → K → K) (R : K) (hist : ℕ → Sample K) (hist_len : ℕ) (maxP neg : K)
        (inj : Gas K → Gas K) (mdot_current dt_agent attempt success : K)
        (allowed : Bool) (g : Gas K) (s : REState K),
      (equilibrateStep pw R hist hist_len maxP neg inj mdot_current dt_agent
          attempt success allowed true g s).2.2.1
        = (equilibrateStep pw R hist hist_len maxP neg inj mdot_current dt_agent
            attempt success allowed false g s).2.2.1 + neg) := by
  refine ⟨fun _ _ _ _ _ _ _ _ _ _ => ⟨?_, ?_⟩, fun _ _ _ _ _ _ _ _ _ _ _ _ => ?_,
    fun _ _ _ _ _ _ _ _ _ _ _ _ _ _ => ?_⟩ <;>
    simp [twoZoneStep, reactorStep, equilibrateStep]

/-- Counterexample to claim C6 as stated: `TwoZoneEngine.step`
(src/mprl/engines.py) never consults the solver's success flag, so with a
failed integration (`solver_ok = false`) and an otherwise nominal
mid-episode state it still returns `done = false` and the work-based
reward (`2 ≠ -100`, the configured negative reward). -/
theorem claim_C6_counterexample :
    ((twoZoneStep (K := ℚ) (fun _ => ⟨1, 1, 1, 1, 1, 1⟩) 100 20265000 (-100) false
        (2, 300, 2000, 0) 0 0 true false
        (twoZoneReset (fun _ => ⟨1, 1, 1, 1, 1, 1⟩) 1 1 1)).2.1 = 2) ∧
    ((twoZoneStep (K := ℚ) (fun _ => ⟨1, 1, 1, 1, 1, 1⟩) 100 20265000 (-100) false
        (2, 300, 2000, 0) 0 0 true false
        (twoZoneReset (fun _ => ⟨1, 1, 1, 1, 1, 1⟩) 1 1 1)).2.2 = false) ∧
    ((2 : ℚ) ≠ -100) := by
  refine ⟨?_, ?_, by norm_num⟩ <;>
    norm_num [twoZoneStep, twoZoneUpdate, twoZoneReset, termination]

/-- Claim C6 (amended): in the src/engine.py variant, when termination has
not already ended the episode, a failed integration makes `step` return
the unchanged state with the configured negative reward and `done = true`;
the mprl `TwoZoneEngine.step`, by contrast, performs no solver-success
check at all — its result is identical for a successful and for a failed
solve. -/
theorem claim_C6_solver_failure (hist : ℕ → Sample K) (hist_len : ℕ)
    (max_burned maxP neg : K) (y : K × K × K × K) (mdot qdot : K)
    (s : EPState K)
    (hnotdone : (terminationPy hist_len max_burned maxP neg mdot s).2 = false) :
    stepPy hist hist_len max_burned maxP neg false y mdot qdot s = (s, neg, true) ∧
    ∀ (hist2 : ℕ → Sample K) (len2 : ℕ) (maxP2 neg2 : K) (y2 : K × K × K × K)
        (attempt success : K) (allowed masked : Bool) (s2 : TZState K)
        (ok1 ok2 : Bool),
      twoZoneStep hist2 len2 maxP2 neg2 ok1 y2 attempt success allowed masked s2
        = twoZoneStep hist2 len2 maxP2 neg2 ok2 y2 attempt success allowed masked s2 := by
  constructor
  · simp [stepPy, hnotdone]
  · intro _ _ _ _ _ _ _ _ _ _ _ _
    rfl

/-- Witness for the amended C6 at a concrete input. -/
theorem claim_C6_witness :
    ((terminationPy (K := ℚ) 100 (6 / 10000) 8000000 (-20) 0
        ⟨1, 400, 2000, 0, 1, 1, 1, 0, 0, 0⟩).2 = false) ∧
    stepPy (K := ℚ) (fun _ => ⟨1, 1, 1, 1, 1, 1⟩) 100 (6 / 10000) 8000000 (-20) false
        (2, 300, 2000, 0) 0 0 ⟨1, 400, 2000, 0, 1, 1, 1, 0, 0, 0⟩
      = (⟨1, 400, 2000, 0, 1, 1, 1, 0, 0, 0⟩, -20, true) :=
  ⟨by norm_num [terminationPy],
    (claim_C6_solver_failure (fun _ => ⟨1, 1, 1, 1, 1, 1⟩) 100 (6 / 10000) 8000000
      (-20) (2, 300, 2000, 0) 0 0 ⟨1, 400, 2000, 0, 1, 1, 1, 0, 0, 0⟩
      (by norm_num [terminationPy])).1⟩

/-- Claim C8: `EquilibrateEngine.step` first advances the gas pressure
isentropically between the history volumes at the current and next step
index: the new pressure is `p1 * (V1 / V2) ^ γ` with `γ = cp / cv` of the
current gas (the source computes `p1 / ((V2 / V1) ** γ)`, equal to it for
positive volumes); in particular for a non-positive injection command the
gas the step ends with has exactly that pressure. -/
theorem claim_C8_isentropic (R : ℝ) (hist : ℕ → Sample ℝ) (hist_len : ℕ)
    (maxP neg : ℝ) (inj : Gas ℝ → Gas ℝ)
    (mdot_current dt_agent attempt success : ℝ) (allowed masked : Bool)
    (g : Gas ℝ) (s : REState ℝ)
    (hV1 : 0 < (hist s.name).V) (hV2 : 0 < (hist (s.name + 1)).V) :
    (isentropicAdvance (fun a b => a ^ b) R g (hist s.name).V
        (hist (s.name + 1)).V).P
      = g.P * ((hist s.name).V / (hist (s.name + 1)).V) ^ (g.cp / g.cv) ∧
    (mdot_current ≤ 0 →
      ((equilibrateStep (fun a b => a ^ b) R hist hist_len maxP neg inj
          mdot_current dt_agent attempt success allowed masked g s).1).P
        = g.P * ((hist s.name).V / (hist (s.name + 1)).V) ^ (g.cp / g.cv)) := by
  have hbase : (0 : ℝ) ≤ (hist (s.name + 1)).V / (hist s.name).V :=
    le_of_lt (div_pos hV2 hV1)
  have key : g.P / ((hist (s.name + 1)).V / (hist s.name).V) ^ (g.cp / g.cv)
      = g.P * ((hist s.name).V / (hist (s.name + 1)).V) ^ (g.cp / g.cv) := by
    rw [div_eq_mul_inv, ← Real.inv_rpow hbase, inv_div]
  constructor
  · simpa [isentropicAdvance] using key
  · intro hm
    simp only [equilibrateStep, isentropicAdvance]
    rw [if_neg (not_lt.2 hm)]
    simpa using key

/-- Witness for C8 at a concrete input (constant unit volumes). -/
theorem claim_C8_witness :
    (isentropicAdvance (fun a b => a ^ b) 1 ⟨1, 1, 1, 1, 1, 1, 1⟩
        ((fun _ => (⟨1, 1, 1, 1, 1, 1⟩ : Sample ℝ)) (0 : ℕ)).V
        ((fun _ => (⟨1, 1, 1, 1, 1, 1⟩ : Sample ℝ)) ((0 : ℕ) + 1)).V).P
      = (1 : ℝ) * ((1 : ℝ) / 1) ^ ((1 : ℝ) / 1) ∧
    ((0 : ℝ) ≤ 0 →
      ((equilibrateStep (fun a b => a ^ b) 1 (fun _ => ⟨1, 1, 1, 1, 1, 1⟩) 3 1 (-1)
          id 0 1 0 0 true false ⟨1, 1, 1, 1, 1, 1, 1⟩
          ⟨1, 1, 0, 0, 0, 0, 1, 1, 1, 1, 1, 1, 0, 0, 1, 0⟩).1).P
        = (1 : ℝ) * ((1 : ℝ) / 1) ^ ((1 : ℝ) / 1)) :=
  claim_C8_isentropic 1 (fun _ => ⟨1, 1, 1, 1, 1, 1⟩) 3 1 (-1) id 0 1 0 0 true false
    ⟨1, 1, 1, 1, 1, 1, 1⟩ ⟨1, 1, 0, 0, 0, 0, 1, 1, 1, 1, 1, 1, 0, 0, 1, 0⟩
    (by norm_num) (by norm_num)

/-- Claim C10: in the reactor and equilibrate variants, `mb` is `0` after
reset and after every state update, hence `0` in every reachable state
(reset followed by any number of updates, over arbitrary histories, gas
snapshots and action data), and a burned-mass termination threshold
(`max_burned_mass = 6e-3`) can never be exceeded there; the mprl
`Engine.termination` itself reads only the step counter, `p` and `dV`. -/
theorem claim_C10_mb_zero :
    (∀ (hist : ℕ → Sample K) (p0 T0 : K), (reactorReset hist p0 T0).mb = 0) ∧
    (∀ (hist : ℕ → Sample K) (p0 T0 : K), (equilibrateReset hist p0 T0).mb = 0) ∧
    (∀ (hist : ℕ → Sample K) (g : Gas K) (mc dt a su : K) (al : Bool)
        (s : REState K), (reactorUpdate hist g mc dt a su al s).mb = 0) ∧
    (∀ (hist : ℕ → Sample K) (g : Gas K) (mc dt a su : K) (al : Bool)
        (s : REState K), (equilibrateUpdate hist g mc dt a su al s).mb = 0) ∧
    (∀ (hists : ℕ → ℕ → Sample K) (gs : ℕ → Gas K) (mcs dts ats sus : ℕ → K)
        (als : ℕ → Bool) (hist0 : ℕ → Sample K) (p0 T0 : K) (k : ℕ),
      (reactorStateAfter
          (fun i => reactorUpdate (hists i) (gs i) (mcs i) (dts i) (ats i) (sus i) (als i))
          (reactorReset hist0 p0 T0) k).mb = 0 ∧
      ¬ (max_burned_mass
          < (reactorStateAfter
              (fun i => reactorUpdate (hists i) (gs i) (mcs i) (dts i) (ats i) (sus i) (als i))
              (reactorReset hist0 p0 T0) k).mb)) ∧
    (∀ (hists : ℕ → ℕ → Sample K) (gs : ℕ → Gas K) (mcs dts ats sus : ℕ → K)
        (als : ℕ → Bool) (hist0 : ℕ → Sample K) (p0 T0 : K) (k : ℕ),
      (reactorStateAfter
          (fun i => equilibrateUpdate (hists i) (gs i) (mcs i) (dts i) (ats i) (sus i) (als i))
          (equilibrateReset hist0 p0 T0) k).mb = 0 ∧
      ¬ (max_burned_mass
          < (reactorStateAfter
              (fun i => equilibrateUpdate (hists i) (gs i) (mcs i) (dts i) (ats i) (sus i) (als i))
              (equilibrateReset hist0 p0 T0) k).mb)) := by
  have hthr : ¬ (max_burned_mass (K := K) < 0) := by
    simp only [max_burned_mass, not_lt]
    positivity
  refine ⟨fun _ _ _ => rfl, fun _ _ _ => rfl, fun _ _ _ _ _ _ _ _ => rfl,
    fun _ _ _ _ _ _ _ _ => rfl, ?_, ?_⟩
  · intro hists gs mcs dts ats sus als hist0 p0 T0 k
    have hmb : (reactorStateAfter
        (fun i => reactorUpdate (hists i) (gs i) (mcs i) (dts i) (ats i) (sus i) (als i))
        (reactorReset hist0 p0 T0) k).mb = 0 := by
      cases k with
      | zero => rfl
      | succ k => rfl
    exact ⟨hmb, by rw [hmb]; exact hthr⟩
  · intro hists gs mcs dts ats sus als hist0 p0 T0 k
    have hmb : (reactorStateAfter
        (fun i => equilibrateUpdate (hists i) (gs i) (mcs i) (dts i) (ats i) (sus i) (als i))
        (equilibrateReset hist0 p0 T0) k).mb = 0 := by
      cases k with
      | zero => rfl
      | succ k => rfl
    exact ⟨hmb, by rw [hmb]; exact hthr⟩

end MPRL
